import Mathlib

/-!
Shallow embedding of the wedding-helper backend core (TypeScript) in Lean 4.

Texts are modelled as `List Char` (one element per UTF-16 code unit of the
original; all characters appearing in the claims are BMP scalars, so the
correspondence is 1:1).  Database tables are modelled as lists of row
structures, appended in insertion order; SQL `WHERE`/`ORDER BY`/`LIMIT`
become `filter`/sort/`take`.  Fallible operations return `Except`.
-/

namespace WeddingHelper

/-- Whitespace characters recognised by the JS regex class `\s` that can occur
in the texts handled by this backend (space, tab, LF, CR, VT, FF). -/
def isJsWs (c : Char) : Bool :=
  c = ' ' || c = '\t' || c = '\n' || c = '\r' || c = '\x0b' || c = '\x0c'

/-- Sentence terminators of `document-parser.service.ts` line 170:
the regex class `[。！？.!?]`. -/
def isTerminator (c : Char) : Bool :=
  c = '。' || c = '！' || c = '？' || c = '.' || c = '!' || c = '?'

/-- Clamp an index into `[0, len]` the way `String.prototype.substring` does. -/
def clampIdx (len : Nat) (i : Int) : Nat :=
  if i ≤ 0 then 0 else if i ≤ (len : Int) then i.toNat else len

/-- JS `text.substring(a, b)`: both arguments are clamped into `[0, length]`
and swapped when `a > b`. -/
def jsSubstring (s : List Char) (a b : Int) : List Char :=
  let x := clampIdx s.length a
  let y := clampIdx s.length b
  (s.take (max x y)).drop (min x y)

/-- JS `text.trim()`: strip leading and trailing whitespace. -/
def jsTrim (s : List Char) : List Char :=
  ((s.dropWhile isJsWs).reverse.dropWhile isJsWs).reverse

/-- JS `window.search(/[。！？.!?][\s\n]/g)`: index of the first position where a
sentence terminator is immediately followed by a whitespace character
(`String.prototype.search` ignores the `g` flag and returns the first match;
`none` models the return value `-1`). -/
def jsSearchTerm : List Char → Option Nat
  | [] => none
  | [_] => none
  | c1 :: c2 :: rest =>
    if isTerminator c1 && isJsWs c2 then some 0
    else (jsSearchTerm (c2 :: rest)).map (· + 1)

/-- The `endIndex` computed by one iteration of the `chunkText` loop
(`document-parser.service.ts` lines 165-176). -/
def chunkStepEnd (text : List Char) (chunkSize : Nat) (startIndex : Int) : Int :=
  let e0 : Int := startIndex + chunkSize
  if e0 < (text.length : Int) then
    match jsSearchTerm (jsSubstring text startIndex e0) with
    | some i => startIndex + (i : Int) + 2
    | none => e0
  else (text.length : Int)

/-- The `while (startIndex < text.length)` loop of `chunkText`
(`document-parser.service.ts` lines 163-192), with explicit fuel: `none`
means the loop has not finished within `fuel` iterations.  `startIndex` is
an `Int` because the source decrements it below zero on some inputs. -/
def chunkLoop (text : List Char) (chunkSize overlap : Nat) :
    Nat → Int → List (List Char) → Option (List (List Char))
  | 0, _, _ => none
  | fuel + 1, startIndex, acc =>
    if startIndex < (text.length : Int) then
      let e := chunkStepEnd text chunkSize startIndex
      let chunk := jsTrim (jsSubstring text startIndex e)
      let acc2 := if 0 < chunk.length then acc ++ [chunk] else acc
      let s2 := e - (overlap : Int)
      if (text.length : Int) - (overlap : Int) ≤ s2 then some acc2
      else chunkLoop text chunkSize overlap fuel s2 acc2
    else some acc

/-- `chunkText(text, chunkSize, overlap)` of `document-parser.service.ts`
lines 155-203, with explicit fuel for the sliding-window loop. -/
def chunkTextFuel (text : List Char) (chunkSize overlap fuel : Nat) :
    Option (List (List Char)) :=
  if text.length ≤ chunkSize then some [text]
  else chunkLoop text chunkSize overlap fuel 0 []

/-- Generator for the input text ". . . ..." used as a failing input: `n`
repetitions of a full stop followed by a space. -/
def dotSpace : Nat → List Char
  | 0 => []
  | n + 1 => '.' :: ' ' :: dotSpace n

theorem dotSpace_length (n : Nat) : (dotSpace n).length = 2 * n := by
  induction n with
  | zero => rfl
  | succ n ih => simp [dotSpace, ih]; omega

theorem jsSearchTerm_of_short (l : List Char) (h : l.length ≤ 1) :
    jsSearchTerm l = none := by
  match l with
  | [] => rfl
  | [_] => rfl
  | _ :: _ :: _ => simp at h

theorem jsSearchTerm_dot_space (l : List Char) :
    jsSearchTerm ('.' :: ' ' :: l) = some 0 := by
  simp [jsSearchTerm]
  exact ⟨by decide, by decide⟩

theorem jsSubstring_of_nonpos (s : List Char) (a b : Int) (ha : a ≤ 0) :
    jsSubstring s a b = s.take (clampIdx s.length b) := by
  unfold jsSubstring
  have hx : clampIdx s.length a = 0 := by unfold clampIdx; rw [if_pos ha]
  rw [hx]
  simp

theorem take_dotSpace_ge_two (k n : Nat) (hk : 2 ≤ k) :
    (dotSpace (n + 1)).take k = '.' :: ' ' :: (dotSpace n).take (k - 2) := by
  obtain ⟨m, rfl⟩ : ∃ m, k = m + 2 := ⟨k - 2, by omega⟩
  simp [dotSpace]

/-- Divergence invariant for the `.`-space text: once `startIndex ≤ 0`, the
`chunkText` loop never reaches either of its exit conditions. -/
theorem chunkLoop_dotSpace_none :
    ∀ (fuel : Nat) (start : Int) (acc : List (List Char)), start ≤ 0 →
      chunkLoop (dotSpace 600) 500 50 fuel start acc = none := by
  intro fuel
  induction fuel with
  | zero => intro start acc _; rfl
  | succ fuel ih =>
    intro start acc hstart
    have hlen : ((dotSpace 600).length : Int) = 1200 := by
      rw [dotSpace_length]; norm_num
    show chunkLoop (dotSpace 600) 500 50 (fuel + 1) start acc = none
    rw [chunkLoop]
    rw [if_pos (by omega)]
    have hstep : chunkStepEnd (dotSpace 600) 500 start ≤ 2 := by
      unfold chunkStepEnd
      rw [if_pos (by omega)]
      rw [jsSubstring_of_nonpos _ _ _ hstart]
      simp only [Nat.cast_ofNat]
      by_cases h2 : 2 ≤ start + 500
      · have hy : clampIdx (dotSpace 600).length (start + 500) = (start + 500).toNat := by
          unfold clampIdx
          rw [if_neg (by omega), if_pos (by omega)]
        rw [hy]
        rw [show (600 : Nat) = 599 + 1 from rfl]
        rw [take_dotSpace_ge_two _ _ (by omega)]
        rw [jsSearchTerm_dot_space]
        simp
        omega
      · have hy : clampIdx (dotSpace 600).length (start + 500) ≤ 1 := by
          unfold clampIdx
          split
          · omega
          · rw [if_pos (by omega)]
            omega
        rw [jsSearchTerm_of_short _ (Nat.le_trans (List.length_take_le _ _) hy)]
        simp
        omega
    rw [if_neg (by omega)]
    exact ih _ _ (by omega)

/-- Claim C7 evaluation: on the 1200-character text ". . . …" (600 repetitions
of full stop + space) with targetSize 500 and overlap 50, the sliding-window
loop of `chunkText` never terminates: no amount of fuel completes it. -/
theorem chunkText_diverges_on_terminator_text (fuel : Nat) :
    chunkTextFuel (dotSpace 600) 500 50 fuel = none := by
  unfold chunkTextFuel
  rw [if_neg (by rw [dotSpace_length]; omega)]
  exact chunkLoop_dotSpace_none fuel 0 [] le_rfl

/-- Claim C8 counterexample: for the 3-character text consisting of a space,
the letter a and a space (length ≤ targetSize), `chunkText` returns the input
untrimmed, which differs from the trimmed input demanded by the claim. -/
theorem chunkText_short_not_trimmed :
    chunkTextFuel [' ', 'a', ' '] 500 50 1 = some [[' ', 'a', ' ']] ∧
      [' ', 'a', ' '] ≠ jsTrim [' ', 'a', ' '] := by
  constructor
  · rfl
  · decide

/-- Claim C8 as amended: for every text whose length is at most targetSize,
`chunkText` returns exactly one segment, and that segment is the input text
itself (no trimming is applied on this path). -/
theorem chunkText_short_returns_input (text : List Char) (cs ov fuel : Nat)
    (h : text.length ≤ cs) : chunkTextFuel text cs ov fuel = some [text] := by
  unfold chunkTextFuel
  rw [if_pos h]

theorem chunkText_short_returns_input_witness :
    ([' ', 'a', ' '] : List Char).length ≤ 500 ∧
      chunkTextFuel [' ', 'a', ' '] 500 50 0 = some [[' ', 'a', ' ']] :=
  ⟨by decide, chunkText_short_returns_input [' ', 'a', ' '] 500 50 0 (by decide)⟩

/-- Position `i` of a window holds a sentence terminator immediately followed
by a whitespace character (both inside the window). -/
def pairAtB (w : List Char) (i : Nat) : Bool :=
  decide (i + 1 < w.length) && isTerminator (w.getD i 'a') && isJsWs (w.getD (i + 1) 'a')

theorem pairAtB_nil (i : Nat) : pairAtB [] i = false := by
  simp [pairAtB]

theorem pairAtB_singleton (c : Char) (i : Nat) : pairAtB [c] i = false := by
  simp [pairAtB]

theorem pairAtB_cons_succ (c : Char) (l : List Char) (i : Nat) :
    pairAtB (c :: l) (i + 1) = pairAtB l i := by
  simp [pairAtB, Nat.succ_lt_succ_iff]

theorem pairAtB_cons_zero (c1 c2 : Char) (l : List Char) :
    pairAtB (c1 :: c2 :: l) 0 = (isTerminator c1 && isJsWs c2) := by
  simp [pairAtB]

/-- Characterisation of the JS `search` model: it returns `some i` exactly when
`i` is the least window position with a terminator-whitespace pair. -/
theorem jsSearchTerm_eq_some (w : List Char) (i : Nat) :
    jsSearchTerm w = some i ↔
      (pairAtB w i = true ∧ ∀ j < i, pairAtB w j = false) := by
  induction w generalizing i with
  | nil => simp [jsSearchTerm, pairAtB]
  | cons c1 rest ih =>
    match rest with
    | [] => simp [jsSearchTerm, pairAtB]
    | c2 :: rest2 =>
      rw [jsSearchTerm]
      by_cases hp : (isTerminator c1 && isJsWs c2) = true
      · rw [if_pos hp]
        constructor
        · intro h
          obtain rfl : i = 0 := by simpa using h.symm
          exact ⟨by rw [pairAtB_cons_zero]; exact hp, by omega⟩
        · rintro ⟨hpair, hmin⟩
          match i with
          | 0 => rfl
          | i + 1 =>
            have h0 := hmin 0 (by omega)
            rw [pairAtB_cons_zero] at h0
            simp [h0] at hp
      · rw [if_neg hp]
        constructor
        · intro h
          match i with
          | 0 => simp at h
          | i + 1 =>
            have h' : jsSearchTerm (c2 :: rest2) = some i := by
              rcases Option.map_eq_some'.1 h with ⟨k, hk, hki⟩
              obtain rfl : k = i := by omega
              exact hk
            obtain ⟨hpair, hmin⟩ := (ih i).1 h'
            refine ⟨by rwa [pairAtB_cons_succ], ?_⟩
            intro j hj
            match j with
            | 0 =>
              rw [pairAtB_cons_zero]
              simpa using hp
            | j + 1 =>
              rw [pairAtB_cons_succ]
              exact hmin j (by omega)
        · rintro ⟨hpair, hmin⟩
          match i with
          | 0 =>
            rw [pairAtB_cons_zero] at hpair
            exact absurd hpair hp
          | i + 1 =>
            rw [pairAtB_cons_succ] at hpair
            have hmin' : ∀ j < i, pairAtB (c2 :: rest2) j = false := by
              intro j hj
              have := hmin (j + 1) (by omega)
              rwa [pairAtB_cons_succ] at this
            rw [(ih i).2 ⟨hpair, hmin'⟩]
            rfl

/-- Claim C9 as amended: when the window ahead of a non-final cut contains a
terminator-plus-whitespace pair, `chunkText` cuts at the FIRST such pair
(two characters past it), not at the last one. -/
theorem chunkStep_cuts_at_first_terminator (text : List Char) (cs : Nat)
    (start : Int) (i : Nat)
    (hwin : start + (cs : Int) < (text.length : Int))
    (hpair : pairAtB (jsSubstring text start (start + (cs : Int))) i = true)
    (hmin : ∀ j < i, pairAtB (jsSubstring text start (start + (cs : Int))) j = false) :
    chunkStepEnd text cs start = start + (i : Int) + 2 := by
  unfold chunkStepEnd
  rw [if_pos hwin]
  rw [(jsSearchTerm_eq_some _ i).2 ⟨hpair, hmin⟩]

theorem chunkStep_cuts_at_first_terminator_witness :
    ((0 : Int) + ((3 : Nat) : Int) < (([ '.', ' ', 'a', 'b', 'c' ] : List Char).length : Int)) ∧
      chunkStepEnd ['.', ' ', 'a', 'b', 'c'] 3 0 = 0 + ((0 : Nat) : Int) + 2 :=
  ⟨by decide,
    chunkStep_cuts_at_first_terminator ['.', ' ', 'a', 'b', 'c'] 3 0 0
      (by decide) (by decide) (by intro j hj; omega)⟩

/-- Modelled from the spec: the last window position holding a sentence
terminator followed by whitespace — where the spec says the cut must happen. -/
def specLastTerminatorIdx (w : List Char) : Option Nat :=
  ((List.range w.length).filter (fun i => pairAtB w i)).getLast?

/-- Text "aaaa. b. cccc" (length 13): its first window of size 10 holds
terminator-whitespace pairs at positions 4 and 7. -/
def sentenceText : List Char :=
  ['a', 'a', 'a', 'a', '.', ' ', 'b', '.', ' ', 'c', 'c', 'c', 'c']

/-- Claim C9 counterexample: chunking `sentenceText` with targetSize 10 and
overlap 3, the last terminator-whitespace pair of the first window sits at
position 7 (spec cut: 7 + 2 = 9), but the code emits a first segment cut two
characters past the FIRST pair (position 4), giving "aaaa." instead of the
"aaaa. b." the claim demands. -/
theorem chunkText_cut_not_at_last_terminator :
    specLastTerminatorIdx (jsSubstring sentenceText 0 10) = some 7 ∧
      chunkTextFuel sentenceText 10 3 2 =
        some [['a', 'a', 'a', 'a', '.'],
              ['a', '.', ' ', 'b', '.', ' ', 'c', 'c', 'c', 'c']] ∧
      ¬ (['a', 'a', 'a', 'a', '.'] : List Char) = jsTrim (jsSubstring sentenceText 0 (7 + 2)) := by
  refine ⟨by decide, by decide, by decide⟩

/-! ## Knowledge store and keyword retrieval (`knowledge.service.ts`) -/

/-- ASCII lower-casing, matching both JS `toLowerCase` and SQLite `LOWER`
on the characters these queries can contain. -/
def asciiLower (c : Char) : Char :=
  if 65 ≤ c.toNat ∧ c.toNat ≤ 90 then Char.ofNat (c.toNat + 32) else c

def lowerStr (s : List Char) : List Char :=
  s.map asciiLower

/-- The CJK range `[一-龥]` of the keyword-extraction regexes. -/
def isCJK (c : Char) : Bool :=
  0x4e00 ≤ c.toNat && c.toNat ≤ 0x9fa5

/-- Characters kept by `replace(/[^a-z0-9\s]/g, ' ')` (after lower-casing). -/
def isLatinNum (c : Char) : Bool :=
  ('a' ≤ c && c ≤ 'z') || ('0' ≤ c && c ≤ '9')

/-- Splitting on whitespace runs (`split(/\s+/)`); empty fragments are dropped,
as the caller filters on token length anyway. `cur` is the reversed current
token being accumulated. -/
def wsTokensGo : List Char → List Char → List (List Char)
  | cur, [] => if cur.isEmpty then [] else [cur.reverse]
  | cur, c :: rest =>
    if isJsWs c then
      if cur.isEmpty then wsTokensGo [] rest
      else cur.reverse :: wsTokensGo [] rest
    else wsTokensGo (c :: cur) rest

def wsTokens (s : List Char) : List (List Char) :=
  wsTokensGo [] s

/-- Keyword extraction of `retrieveContext` (`knowledge.service.ts` lines
486-497): individual CJK characters plus latin/numeric runs of length > 1,
from the lower-cased query. -/
def extractKeywords (q : List Char) : List (List Char) :=
  let ql := lowerStr q
  let chineseChars := (ql.filter isCJK).map (fun c => [c])
  let englishWords :=
    (wsTokens (((ql.map (fun c => if isCJK c then ' ' else c)).map
      (fun c => if isLatinNum c || isJsWs c then c else ' ')))).filter
      (fun w => 1 < w.length)
  (chineseChars ++ englishWords).filter (fun kw => 0 < kw.length)

/-- Prefix test used by the substring matcher. -/
def leadsWith : List Char → List Char → Bool
  | [], _ => true
  | _ :: _, [] => false
  | a :: as, b :: bs => a == b && leadsWith as bs

/-- SQL `LIKE %needle%` over an already lower-cased haystack: contiguous
substring containment. -/
def listContains : List Char → List Char → Bool
  | [], needle => needle.isEmpty
  | c :: rest, needle => leadsWith needle (c :: rest) || listContains rest needle

/-- One row of the `knowledge_chunks` table. -/
structure ChunkRow where
  document_id : Nat
  user_id : Nat
  chunk_text : List Char
  chunk_index : Nat
deriving DecidableEq

/-- One row of the `knowledge_documents` table (the columns this core uses). -/
structure DocRow where
  doc_id : Nat
  user_id : Nat
  original_filename : List Char
  content_text : List Char
deriving DecidableEq

/-- Stable insertion used to model `ORDER BY chunk_index ASC`. -/
def insertByIdx (r : ChunkRow) : List ChunkRow → List ChunkRow
  | [] => [r]
  | x :: xs => if x.chunk_index ≤ r.chunk_index then x :: insertByIdx r xs else r :: x :: xs

def sortByIdx : List ChunkRow → List ChunkRow
  | [] => []
  | x :: xs => insertByIdx x (sortByIdx xs)

/-- The row-level result of `retrieveContext` (`knowledge.service.ts` lines
476-548): tokenize the query; empty keyword set gives an empty result;
otherwise filter the tenant's chunks on `LOWER(chunk_text) LIKE %kw%` for any
keyword, order by `chunk_index` ascending and cap at `maxChunks`. -/
def retrieveContextRows (chunks : List ChunkRow) (userId : Nat) (query : List Char)
    (maxChunks : Nat) : List ChunkRow :=
  let keywords := extractKeywords query
  if keywords.isEmpty then []
  else
    (sortByIdx (chunks.filter (fun r =>
      r.user_id == userId &&
        keywords.any (fun kw => listContains (lowerStr r.chunk_text) kw)))).take maxChunks

/-- `retrieveContext` returns the chunk texts of the selected rows. -/
def retrieveContext (chunks : List ChunkRow) (userId : Nat) (query : List Char)
    (maxChunks : Nat) : List (List Char) :=
  (retrieveContextRows chunks userId query maxChunks).map (fun r => r.chunk_text)

theorem mem_insertByIdx (a r : ChunkRow) (l : List ChunkRow) :
    a ∈ insertByIdx r l ↔ a = r ∨ a ∈ l := by
  induction l with
  | nil => simp [insertByIdx]
  | cons x xs ih =>
    rw [insertByIdx]
    split <;> simp [ih] <;> tauto

theorem mem_sortByIdx (a : ChunkRow) (l : List ChunkRow) :
    a ∈ sortByIdx l ↔ a ∈ l := by
  induction l with
  | nil => simp [sortByIdx]
  | cons x xs ih =>
    rw [sortByIdx, mem_insertByIdx]
    simp [ih]

/-- Claim C1: every chunk row selected by keyword retrieval for tenant
`userId` carries exactly that tenant id — a chunk of another tenant is never
returned, whatever the database contents, the query and the cap. -/
theorem retrieveContext_tenant_isolation (chunks : List ChunkRow) (userId : Nat)
    (query : List Char) (maxChunks : Nat) (r : ChunkRow)
    (hr : r ∈ retrieveContextRows chunks userId query maxChunks) :
    r.user_id = userId := by
  simp only [retrieveContextRows] at hr
  split at hr
  · simp at hr
  · have hr2 := List.mem_of_mem_take hr
    rw [mem_sortByIdx] at hr2
    have := List.mem_filter.1 hr2
    have hcond := this.2
    simp only [Bool.and_eq_true, beq_iff_eq] at hcond
    exact hcond.1

/-- Two tenants, each owning a chunk containing the shared keyword "hello";
the query issued as tenant 1 selects only tenant 1 rows. -/
def chunkRowT1 : ChunkRow :=
  ⟨1, 1, ['h', 'e', 'l', 'l', 'o', ' ', 'w', 'e', 'd', 'd', 'i', 'n', 'g'], 0⟩

def chunkRowT2 : ChunkRow :=
  ⟨2, 2, ['h', 'e', 'l', 'l', 'o', ' ', 'p', 'a', 'r', 't', 'y'], 0⟩

theorem retrieveContext_tenant_isolation_witness :
    chunkRowT1 ∈ retrieveContextRows [chunkRowT1, chunkRowT2] 1
        ['h', 'e', 'l', 'l', 'o'] 5 ∧
      chunkRowT1.user_id = 1 :=
  ⟨by decide,
    retrieveContext_tenant_isolation [chunkRowT1, chunkRowT2] 1
      ['h', 'e', 'l', 'l', 'o'] 5 chunkRowT1 (by decide)⟩

/-! ## Session store (`session.service.ts`) -/

inductive Role
  | user
  | assistant
  | system
deriving DecidableEq

/-- Message classification of `detectMessageType` (`blessing`, `question` or
generic `message`). -/
inductive MsgType
  | blessing
  | question
  | message
deriving DecidableEq

/-- One row of `chat_sessions`. -/
structure SessionRow where
  sid : List Char
  user_id : Nat
  guest_name : Option (List Char)
  title : Option (List Char)
deriving DecidableEq

/-- One row of `chat_messages`. -/
structure MessageRow where
  session_id : List Char
  user_id : Nat
  role : Role
  content : List Char
  tokens_used : Nat
deriving DecidableEq

/-- One row of `guest_messages`. -/
structure GuestMessageRow where
  session_id : List Char
  user_id : Nat
  guest_name : List Char
  message_type : MsgType
  content : List Char
deriving DecidableEq

/-- The persistent state of the backend: the five tenant-scoped tables, rows
in insertion order, plus the id counter for `knowledge_documents`. -/
structure AppState where
  sessions : List SessionRow
  messages : List MessageRow
  guestMessages : List GuestMessageRow
  documents : List DocRow
  chunks : List ChunkRow
  nextDocId : Nat
deriving DecidableEq

/-- `getOrCreateSession` (`session.service.ts` lines 68-120): reuse the
caller's own session; reject (throw) when the id exists under another user;
otherwise insert a fresh row.  The returned state is the database after the
call; an `error` result models the thrown ownership-conflict error.  (The
reuse branch also reads the session's messages; reads do not change state and
are omitted.) -/
def getOrCreateSession (sessionId : List Char) (userId : Nat)
    (guestName : Option (List Char)) (st : AppState) :
    Except Unit SessionRow × AppState :=
  match st.sessions.find? (fun r => r.sid == sessionId && r.user_id == userId) with
  | some r => (.ok r, st)
  | none =>
    match st.sessions.find? (fun r => r.sid == sessionId) with
    | some _ => (.error (), st)
    | none =>
      (.ok ⟨sessionId, userId, guestName, none⟩,
        { st with sessions := st.sessions ++ [⟨sessionId, userId, guestName, none⟩] })

/-- Claim C2: for a session id `X`, (1) if `X` exists and every row holding it
belongs to `T1 ≠ T2`, the call for `T2` raises the ownership conflict and
leaves the state untouched; (2) if `X` exists under `T2` it is reused with no
write; (3) if `X` does not exist it is created under `T2`. -/
theorem getOrCreateSession_ownership (st : AppState) (X : List Char)
    (T1 T2 : Nat) (gn : Option (List Char)) :
    ((∃ r ∈ st.sessions, r.sid = X) →
      (∀ r ∈ st.sessions, r.sid = X → r.user_id = T1) → T1 ≠ T2 →
      getOrCreateSession X T2 gn st = (.error (), st)) ∧
    ((∃ r ∈ st.sessions, r.sid = X ∧ r.user_id = T2) →
      (getOrCreateSession X T2 gn st).2 = st ∧
        ∃ r, (getOrCreateSession X T2 gn st).1 = .ok r) ∧
    ((∀ r ∈ st.sessions, r.sid ≠ X) →
      getOrCreateSession X T2 gn st =
        (.ok ⟨X, T2, gn, none⟩,
          { st with sessions := st.sessions ++ [⟨X, T2, gn, none⟩] })) := by
  refine ⟨?_, ?_, ?_⟩
  · rintro ⟨r, hrmem, hrX⟩ hOwn hne
    have h1 : st.sessions.find? (fun r => r.sid == X && r.user_id == T2) = none := by
      rw [List.find?_eq_none]
      intro x hx
      simp only [Bool.and_eq_true, beq_iff_eq, not_and]
      intro hxX hxT
      exact hne (by rw [← hOwn x hx hxX, hxT])
    cases hf : st.sessions.find? (fun r => r.sid == X) with
    | none =>
      rw [List.find?_eq_none] at hf
      exact absurd (by simp [hrX]) (hf r hrmem)
    | some s =>
      simp only [getOrCreateSession, h1, hf]
  · rintro ⟨r, hrmem, hrX, hrT⟩
    have hsome : (st.sessions.find? (fun r => r.sid == X && r.user_id == T2)).isSome := by
      rw [List.find?_isSome]
      exact ⟨r, hrmem, by simp [hrX, hrT]⟩
    cases hf : st.sessions.find? (fun r => r.sid == X && r.user_id == T2) with
    | none => rw [hf] at hsome; simp at hsome
    | some s =>
      simp [getOrCreateSession, hf]
  · intro hnone
    have h1 : st.sessions.find? (fun r => r.sid == X && r.user_id == T2) = none := by
      rw [List.find?_eq_none]
      intro x hx
      simp only [Bool.and_eq_true, beq_iff_eq, not_and]
      intro hxX
      exact absurd hxX (hnone x hx)
    have h2 : st.sessions.find? (fun r => r.sid == X) = none := by
      rw [List.find?_eq_none]
      intro x hx
      simpa using hnone x hx
    simp only [getOrCreateSession, h1, h2]

/-- A database holding only the session "s1" owned by tenant 1. -/
def stSessionW : AppState :=
  ⟨[⟨['s', '1'], 1, none, none⟩], [], [], [], [], 0⟩

theorem getOrCreateSession_ownership_witness :
    getOrCreateSession ['s', '1'] 2 none stSessionW = (.error (), stSessionW) :=
  (getOrCreateSession_ownership stSessionW ['s', '1'] 1 2 none).1
    (by decide) (by decide) (by decide)

/-! ## Prompt helpers (`types/index.ts`) and the chat turn handler
(`router.post` on `/message`). -/

/-- Tail shared by both greeting variants of `generateGreeting`. -/
def greetingTail : List Char :=
  ("！欢迎光临！我是新人的婚礼助手，很高兴为您服务。\n\n请问您对婚礼或新人有什么想了解的吗？或者有什么祝福想要传达给新人呢？😊").data

/-- `generateGreeting(guestName?)`: personalised when a non-empty guest name
is supplied (JS truthiness check), generic otherwise. -/
def generateGreeting (gn : Option (List Char)) : List Char :=
  match gn with
  | some n =>
    if n = [] then ("您好").data ++ greetingTail
    else ("您好，").data ++ n ++ greetingTail
  | none => ("您好").data ++ greetingTail

/-- Blessing lexicon of `detectMessageType`. -/
def blessingKeywords : List (List Char) :=
  [("祝").data, ("恭喜").data, ("幸福").data, ("百年好合").data, ("白头偕老").data,
   ("恭祝").data, ("祝福").data, ("美满").data, ("永结同心").data, ("天长地久").data,
   ("新婚快乐").data, ("早生贵子").data, ("佳偶天成").data, ("喜结连理").data,
   ("琴瑟和鸣").data]

/-- Question lexicon of `detectMessageType`. -/
def questionKeywords : List (List Char) :=
  [("?").data, ("？").data, ("请问").data, ("什么").data, ("哪里").data, ("几点").data,
   ("如何").data, ("怎么").data, ("怎样").data, ("为什么").data, ("多少").data,
   ("谁").data, ("何时").data, ("哪儿").data, ("吗").data, ("呢").data, ("能否").data,
   ("可以").data, ("是否").data]

/-- `detectMessageType` (`types/index.ts` lines 370-412): blessing when
blessing keywords match and no question keyword does; question when any
question keyword matches; blessing when the text starts with 祝 or 恭喜;
generic message otherwise. -/
def detectMessageType (m : List Char) : MsgType :=
  let lowerMessage := lowerStr m
  let blessingMatches := (blessingKeywords.filter (fun kw => listContains m kw)).length
  let questionMatches := (questionKeywords.filter (fun kw =>
      listContains m kw || listContains lowerMessage (lowerStr kw))).length
  if 0 < blessingMatches ∧ questionMatches = 0 then .blessing
  else if 0 < questionMatches then .question
  else if leadsWith (("祝").data) m || leadsWith (("恭喜").data) m then .blessing
  else .message

/-- Whitespace-run collapsing of `replace(/\s+/g, ' ')`; the boolean records
whether the previous character was whitespace. -/
def collapseWsGo : Bool → List Char → List Char
  | _, [] => []
  | prevWs, c :: rest =>
    if isJsWs c then
      if prevWs then collapseWsGo true rest else ' ' :: collapseWsGo true rest
    else c :: collapseWsGo false rest

def collapseWs (s : List Char) : List Char :=
  collapseWsGo false s

/-- `validateGuestMessage` (`types/index.ts` lines 457-472): reject empty or
whitespace-only content, reject content longer than 1000 characters after
trimming, otherwise return the trimmed text with whitespace runs collapsed. -/
def validateGuestMessage (m : List Char) : Except (List Char) (List Char) :=
  if jsTrim m = [] then .error (("消息内容不能为空").data)
  else if 1000 < (jsTrim m).length then .error (("消息内容过长，请控制在1000字以内").data)
  else .ok (collapseWs (jsTrim m))

/-- `addMessage` (`session.service.ts` lines 151-169): ensure the session
exists and belongs to the user, then insert the message row. -/
def addMessage (sessionId : List Char) (userId : Nat) (role : Role)
    (content : List Char) (tokensUsed : Nat) (st : AppState) :
    Except Unit Unit × AppState :=
  match getOrCreateSession sessionId userId none st with
  | (.error _, st1) => (.error (), st1)
  | (.ok _, st1) =>
    (.ok (),
      { st1 with messages := st1.messages ++ [⟨sessionId, userId, role, content, tokensUsed⟩] })

/-- `saveGuestMessage` (`session.service.ts` lines 294-312). -/
def saveGuestMessage (sessionId : List Char) (userId : Nat) (guestName : List Char)
    (messageType : MsgType) (content : List Char) (st : AppState) : AppState :=
  { st with guestMessages :=
      st.guestMessages ++ [⟨sessionId, userId, guestName, messageType, content⟩] }

/-- Responses of the `/message` route: 400 validation errors, the 500 handler
of the route-level catch, the first-turn greeting reply, and the normal
success reply. -/
inductive ChatResponse
  | validationError (msg : List Char)
  | chatError
  | newSession (sessionId : List Char) (response : List Char)
  | success (sessionId : List Char) (response : List Char) (messageType : MsgType)
      (tokensUsed : Nat)
deriving DecidableEq

/-- Resolution of `const currentSessionId = sessionId || uuidv4()`: an absent
or empty (falsy) session id is replaced by the freshly minted uuid. -/
def resolveSessionId (sessionId : Option (List Char)) (minted : List Char) : List Char :=
  match sessionId with
  | some s => if s = [] then minted else s
  | none => minted

/-- The guest-name fallback `guestName || '匿名宾客'`. -/
def resolveGuestName (guestName : Option (List Char)) : List Char :=
  match guestName with
  | some g => if g = [] then ("匿名宾客").data else g
  | none => ("匿名宾客").data

/-- The body of the `/message` route after validation: greeting short-circuit
for a session unknown to this tenant, otherwise classify, call the adapter
(outcome `llmResult`), and on success persist user message, optional curated
guest message, and assistant reply — in that order. -/
def handleTurn (userId : Nat) (currentSessionId : List Char)
    (sanitizedMessage : List Char) (guestName : Option (List Char))
    (llmResult : Except Unit (List Char × Nat)) (st : AppState) :
    ChatResponse × AppState :=
  match st.sessions.find? (fun r => r.sid == currentSessionId && r.user_id == userId) with
  | none =>
    let c := getOrCreateSession currentSessionId userId guestName st
    match c.1 with
    | .error _ => (.chatError, c.2)
    | .ok _ =>
      let a := addMessage currentSessionId userId .assistant
        (generateGreeting guestName) 0 c.2
      match a.1 with
      | .error _ => (.chatError, a.2)
      | .ok _ => (.newSession currentSessionId (generateGreeting guestName), a.2)
  | some _ =>
    match llmResult with
    | .error _ => (.chatError, st)
    | .ok (reply, tokensUsed) =>
      let a1 := addMessage currentSessionId userId .user sanitizedMessage 0 st
      match a1.1 with
      | .error _ => (.chatError, a1.2)
      | .ok _ =>
        let st2 :=
          if detectMessageType sanitizedMessage = MsgType.blessing then
            saveGuestMessage currentSessionId userId (resolveGuestName guestName)
              (detectMessageType sanitizedMessage) sanitizedMessage a1.2
          else a1.2
        let a2 := addMessage currentSessionId userId .assistant reply tokensUsed st2
        match a2.1 with
        | .error _ => (.chatError, a2.2)
        | .ok _ =>
          (.success currentSessionId reply (detectMessageType sanitizedMessage)
            tokensUsed, a2.2)

def handleChatMessage (auth : Option Nat) (sessionId : Option (List Char))
    (message : Option (List Char)) (guestName : Option (List Char))
    (minted : List Char) (llmResult : Except Unit (List Char × Nat))
    (st : AppState) : ChatResponse × AppState :=
  let userId := auth.getD 0
  match message with
  | none => (.validationError (("Message is required and must be a string").data), st)
  | some m =>
    if m = [] then
      (.validationError (("Message is required and must be a string").data), st)
    else
      match validateGuestMessage m with
      | .error e => (.validationError e, st)
      | .ok sanitizedMessage =>
        handleTurn userId (resolveSessionId sessionId minted) sanitizedMessage
          guestName llmResult st

/-- Claim C3: on a non-first turn (the session already exists for the calling
tenant) whose message passes validation, a failing generation adapter call
leaves the stored state exactly as it was — no user message, no curated
message, no assistant message — and the turn reports an error. -/
theorem generation_failure_no_writes (auth : Option Nat) (s m san : List Char)
    (gn : Option (List Char)) (minted : List Char) (st : AppState)
    (hs : s ≠ [])
    (hval : validateGuestMessage m = .ok san)
    (hsess : (st.sessions.find?
      (fun r => r.sid == s && r.user_id == auth.getD 0)).isSome) :
    handleChatMessage auth (some s) (some m) gn minted (.error ()) st =
      (.chatError, st) := by
  have hm : m ≠ [] := by
    intro h
    rw [h] at hval
    simp [validateGuestMessage, jsTrim] at hval
  obtain ⟨r, hr⟩ := Option.isSome_iff_exists.1 hsess
  simp [handleChatMessage, handleTurn, resolveSessionId, hm, hval, hs, hr]

/-- Session "s1" owned by the anonymous tenant 0, for the C3 witness. -/
def stChatW : AppState :=
  ⟨[⟨['s', '1'], 0, none, none⟩], [], [], [], [], 0⟩

theorem generation_failure_no_writes_witness :
    handleChatMessage none (some ['s', '1']) (some ['h', 'i']) none ['m']
        (.error ()) stChatW = (.chatError, stChatW) :=
  generation_failure_no_writes none ['s', '1'] ['h', 'i'] ['h', 'i'] none ['m']
    stChatW (by decide) (by rfl) (by rfl)

/-- The empty database, used by several concrete runs. -/
def stEmpty : AppState :=
  ⟨[], [], [], [], [], 0⟩

/-- Claim C4 counterexample: an empty-string message on a turn whose session
does not exist is rejected with a 400 validation error before any session
work — no greeting is returned and nothing is persisted, contradicting the
claim's "regardless of the submitted text, even an empty string". -/
theorem greeting_empty_message_rejected :
    handleChatMessage none none (some []) none ['m'] (.ok (['x'], 0)) stEmpty =
      (.validationError (("Message is required and must be a string").data), stEmpty) ∧
      (handleChatMessage none none (some []) none ['m'] (.ok (['x'], 0)) stEmpty).2.messages
        = [] := by
  constructor
  · rfl
  · rfl

/-- Claim C4 as amended: on a turn whose message passes validation (in
particular it is non-empty) and whose session id exists under no tenant, the
handler creates the session, persists the canned greeting as the sole
appended (assistant) message, and returns the greeting — for every adapter
outcome and knowledge-base content, i.e. with no generation call and no
observable retrieval, and with no user message persisted. -/
theorem greeting_first_turn (auth : Option Nat) (s m san : List Char)
    (gn : Option (List Char)) (minted : List Char)
    (llmResult : Except Unit (List Char × Nat)) (st : AppState)
    (hs : s ≠ [])
    (hval : validateGuestMessage m = .ok san)
    (hnew : ∀ r ∈ st.sessions, r.sid ≠ s) :
    handleChatMessage auth (some s) (some m) gn minted llmResult st =
      (.newSession s (generateGreeting gn),
        { st with
            sessions := st.sessions ++ [⟨s, auth.getD 0, gn, none⟩],
            messages := st.messages ++
              [⟨s, auth.getD 0, .assistant, generateGreeting gn, 0⟩] }) := by
  have hm : m ≠ [] := by
    intro h
    rw [h] at hval
    simp [validateGuestMessage, jsTrim] at hval
  have hf0 : st.sessions.find?
      (fun r => r.sid == s && r.user_id == auth.getD 0) = none := by
    rw [List.find?_eq_none]
    intro x hx
    simp only [Bool.and_eq_true, beq_iff_eq, not_and]
    intro hxX
    exact absurd hxX (hnew x hx)
  have hf1 : st.sessions.find? (fun r => r.sid == s) = none := by
    rw [List.find?_eq_none]
    intro x hx
    simpa using hnew x hx
  have hcreate : getOrCreateSession s (auth.getD 0) gn st =
      (.ok ⟨s, auth.getD 0, gn, none⟩,
        { st with sessions := st.sessions ++ [⟨s, auth.getD 0, gn, none⟩] }) := by
    simp only [getOrCreateSession, hf0, hf1]
  have hadd : addMessage s (auth.getD 0) .assistant (generateGreeting gn) 0
      { st with sessions := st.sessions ++ [⟨s, auth.getD 0, gn, none⟩] } =
      (.ok (),
        { st with
            sessions := st.sessions ++ [⟨s, auth.getD 0, gn, none⟩],
            messages := st.messages ++
              [⟨s, auth.getD 0, .assistant, generateGreeting gn, 0⟩] }) := by
    have hfind : (st.sessions ++ [(⟨s, auth.getD 0, gn, none⟩ : SessionRow)]).find?
        (fun r => r.sid == s && r.user_id == auth.getD 0) =
        some ⟨s, auth.getD 0, gn, none⟩ := by
      rw [List.find?_append, hf0]
      simp [List.find?]
    simp only [addMessage, getOrCreateSession, hfind]
  simp [handleChatMessage, handleTurn, resolveSessionId, hm, hval, hs, hf0,
    hcreate, hadd]

theorem greeting_first_turn_witness :
    handleChatMessage none (some ['s', '2']) (some ['h', 'i']) none ['m']
        (.ok ([], 0)) stEmpty =
      (.newSession ['s', '2'] (generateGreeting none),
        { stEmpty with
            sessions := stEmpty.sessions ++ [⟨['s', '2'], 0, none, none⟩],
            messages := stEmpty.messages ++
              [⟨['s', '2'], 0, .assistant, generateGreeting none, 0⟩] }) :=
  greeting_first_turn none ['s', '2'] ['h', 'i'] ['h', 'i'] none ['m']
    (.ok ([], 0)) stEmpty (by decide) (by rfl) (by decide)

/-- New rows written between two states all carry the given tenant id. -/
def rowsTagged (uid : Nat) (st st2 : AppState) : Prop :=
  (∀ r ∈ st2.sessions, r ∈ st.sessions ∨ r.user_id = uid) ∧
  (∀ m ∈ st2.messages, m ∈ st.messages ∨ m.user_id = uid) ∧
  (∀ g ∈ st2.guestMessages, g ∈ st.guestMessages ∨ g.user_id = uid)

theorem rowsTagged_refl (uid : Nat) (st : AppState) : rowsTagged uid st st :=
  ⟨fun _ h => Or.inl h, fun _ h => Or.inl h, fun _ h => Or.inl h⟩

theorem rowsTagged_trans (uid : Nat) (a b c : AppState)
    (h1 : rowsTagged uid a b) (h2 : rowsTagged uid b c) : rowsTagged uid a c := by
  obtain ⟨s1, m1, g1⟩ := h1
  obtain ⟨s2, m2, g2⟩ := h2
  refine ⟨fun r hr => ?_, fun r hr => ?_, fun r hr => ?_⟩
  · rcases s2 r hr with h | h
    · exact s1 r h
    · exact Or.inr h
  · rcases m2 r hr with h | h
    · exact m1 r h
    · exact Or.inr h
  · rcases g2 r hr with h | h
    · exact g1 r h
    · exact Or.inr h

theorem getOrCreateSession_rowsTagged (sid : List Char) (uid : Nat)
    (gn : Option (List Char)) (st : AppState) :
    rowsTagged uid st (getOrCreateSession sid uid gn st).2 := by
  unfold getOrCreateSession
  split
  · exact rowsTagged_refl uid st
  · split
    · exact rowsTagged_refl uid st
    · refine ⟨fun r hr => ?_, fun _ h => Or.inl h, fun _ h => Or.inl h⟩
      simp only [List.mem_append, List.mem_singleton] at hr
      rcases hr with h | h
      · exact Or.inl h
      · exact Or.inr (by rw [h])

theorem addMessage_rowsTagged (sid : List Char) (uid : Nat) (role : Role)
    (content : List Char) (tk : Nat) (st : AppState) :
    rowsTagged uid st (addMessage sid uid role content tk st).2 := by
  unfold addMessage
  have hbase := getOrCreateSession_rowsTagged sid uid none st
  cases hg : getOrCreateSession sid uid none st with
  | mk res st1 =>
    rw [hg] at hbase
    cases res with
    | error e => exact hbase
    | ok v =>
      refine rowsTagged_trans uid st st1 _ hbase
        ⟨fun _ h => Or.inl h, fun r hr => ?_, fun _ h => Or.inl h⟩
      simp only [List.mem_append, List.mem_singleton] at hr
      rcases hr with h | h
      · exact Or.inl h
      · exact Or.inr (by rw [h])

theorem saveGuestMessage_rowsTagged (sid : List Char) (uid : Nat)
    (gname : List Char) (mt : MsgType) (content : List Char) (st : AppState) :
    rowsTagged uid st (saveGuestMessage sid uid gname mt content st) := by
  refine ⟨fun _ h => Or.inl h, fun _ h => Or.inl h, fun r hr => ?_⟩
  simp only [saveGuestMessage, List.mem_append, List.mem_singleton] at hr
  rcases hr with h | h
  · exact Or.inl h
  · exact Or.inr (by rw [h])

/-- Every row `handleTurn` writes carries the resolved caller id `userId`. -/
theorem handleTurn_rowsTagged (userId : Nat) (cid san : List Char)
    (gn : Option (List Char)) (llmResult : Except Unit (List Char × Nat))
    (st : AppState) :
    rowsTagged userId st (handleTurn userId cid san gn llmResult st).2 := by
  have hcreate := getOrCreateSession_rowsTagged cid userId gn st
  unfold handleTurn
  split
  -- new-session branch
  · dsimp only
    split
    · exact hcreate
    · have hchain := rowsTagged_trans _ st _ _ hcreate
        (addMessage_rowsTagged cid userId .assistant (generateGreeting gn) 0
          (getOrCreateSession cid userId gn st).2)
      split
      · exact hchain
      · exact hchain
  -- existing-session branch
  · split
    · exact rowsTagged_refl _ st
    · rename_i reply tokensUsed
      dsimp only
      have hadd := addMessage_rowsTagged cid userId .user san 0 st
      split
      · exact hadd
      · by_cases hb : detectMessageType san = MsgType.blessing
        · rw [if_pos hb]
          have hchain := rowsTagged_trans _ st _ _ hadd
            (rowsTagged_trans _ _ _ _
              (saveGuestMessage_rowsTagged cid userId (resolveGuestName gn)
                (detectMessageType san) san (addMessage cid userId .user san 0 st).2)
              (addMessage_rowsTagged cid userId .assistant reply tokensUsed
                (saveGuestMessage cid userId (resolveGuestName gn)
                  (detectMessageType san) san
                  (addMessage cid userId .user san 0 st).2)))
          split
          · exact hchain
          · exact hchain
        · rw [if_neg hb]
          have hchain := rowsTagged_trans _ st _ _ hadd
            (addMessage_rowsTagged cid userId .assistant reply tokensUsed
              (addMessage cid userId .user san 0 st).2)
          split
          · exact hchain
          · exact hchain

/-- Every row the turn handler writes carries the resolved caller id
`auth.getD 0`. -/
theorem handleChatMessage_rowsTagged (auth : Option Nat)
    (sessionId : Option (List Char)) (message : Option (List Char))
    (guestName : Option (List Char)) (minted : List Char)
    (llmResult : Except Unit (List Char × Nat)) (st : AppState) :
    rowsTagged (auth.getD 0) st
      (handleChatMessage auth sessionId message guestName minted llmResult st).2 := by
  unfold handleChatMessage
  split
  · exact rowsTagged_refl _ st
  · split
    · exact rowsTagged_refl _ st
    · split
      · exact rowsTagged_refl _ st
      · exact handleTurn_rowsTagged (auth.getD 0) _ _ guestName llmResult st

/-- Claim C10: a turn request without an authenticated caller runs exactly as
tenant 0 — it is indistinguishable from a request authenticated as user 0,
and every session, chat-message and guest-message row it writes carries
`user_id = 0`, so all anonymous guests share the single tenant-0 namespace. -/
theorem anonymous_requests_use_tenant_zero (sessionId : Option (List Char))
    (message : Option (List Char)) (guestName : Option (List Char))
    (minted : List Char) (llmResult : Except Unit (List Char × Nat))
    (st : AppState) :
    handleChatMessage none sessionId message guestName minted llmResult st =
        handleChatMessage (some 0) sessionId message guestName minted llmResult st ∧
      rowsTagged 0 st
        (handleChatMessage none sessionId message guestName minted llmResult st).2 :=
  ⟨rfl, handleChatMessage_rowsTagged none sessionId message guestName minted llmResult st⟩

theorem anonymous_requests_use_tenant_zero_witness :
    (⟨['s', '2'], 0, Role.assistant, generateGreeting none, 0⟩ : MessageRow).user_id = 0 :=
  ((anonymous_requests_use_tenant_zero (some ['s', '2']) (some ['h', 'i']) none
      ['m'] (.ok ([], 0)) stEmpty).2.2.1
    ⟨['s', '2'], 0, .assistant, generateGreeting none, 0⟩
    (by decide)).resolve_left (by decide)

/-! ## Document ingestion (`knowledge.service.ts` uploadDocument /
uploadDocuments).  The document INSERT and each chunk INSERT are separate
statements (`db.execute`) with no enclosing transaction, so the embedding
threads an optional failure point `failAt`: the 0-based index of the SQL
write statement of this upload that throws (0 = the document INSERT,
`i + 1` = the INSERT of chunk `i`).  `failAt = none` is the failure-free
run. -/

/-- The extension allow-list of `validateFile`. -/
def allowedTypes : List (List Char) :=
  [("pdf").data, ("docx").data, ("doc").data, ("txt").data, ("md").data,
   ("markdown").data]

/-- The chunk-INSERT loop (`knowledge.service.ts` lines 141-148): one INSERT
per chunk, `chunk_index` counting from 0; a throwing statement aborts the
loop, leaving the rows already inserted in place. -/
def insertChunks (failAt : Option Nat) (stmtIdx docId userId idx : Nat) :
    List (List Char) → AppState → Except Unit Unit × AppState
  | [], st => (.ok (), st)
  | c :: cs, st =>
    if failAt = some stmtIdx then (.error (), st)
    else insertChunks failAt (stmtIdx + 1) docId userId (idx + 1) cs
      { st with chunks := st.chunks ++ [⟨docId, userId, c, idx⟩] }

/-- `uploadDocument` (`knowledge.service.ts` lines 73-178): validate the file
type, reject empty extracted text, INSERT the document row, chunk the text,
then INSERT the chunk rows one by one.  The catch block cleans up the
temporary file (not modelled — it touches no database row) and rethrows, so
rows written before a failure stay.  `none` as overall result models the
upload hanging because `chunkText` never terminates. -/
def uploadDocumentW (failAt : Option Nat) (userId : Nat)
    (fileType origName text : List Char) (fuel : Nat) (st : AppState) :
    Option (Except Unit Nat × AppState) :=
  if allowedTypes.contains (lowerStr fileType) = false then some (.error (), st)
  else if jsTrim text = [] then some (.error (), st)
  else if failAt = some 0 then some (.error (), st)
  else
    let docId := st.nextDocId
    let st1 := { st with
      documents := st.documents ++ [⟨docId, userId, origName, text⟩],
      nextDocId := st.nextDocId + 1 }
    match chunkTextFuel text 500 50 fuel with
    | none => none
    | some chunks =>
      match insertChunks failAt 1 docId userId 0 chunks st1 with
      | (.ok _, st2) => some (.ok docId, st2)
      | (.error _, st2) => some (.error (), st2)

/-- `uploadDocuments` (`knowledge.service.ts` lines 183-223): sequential
per-file loop; a failing file is logged into a local `errors` array and the
loop continues; the function returns ONLY the `results` array of successful
uploads (document ids here). -/
def uploadDocumentsW (userId fuel : Nat) :
    List (List Char × List Char × List Char) → AppState →
      Option (List Nat × AppState)
  | [], st => some ([], st)
  | (ftype, oname, text) :: fs, st =>
    match uploadDocumentW none userId ftype oname text fuel st with
    | none => none
    | some (.ok docId, st1) =>
      match uploadDocumentsW userId fuel fs st1 with
      | none => none
      | some (rs, st2) => some (docId :: rs, st2)
    | some (.error _, st1) => uploadDocumentsW userId fuel fs st1

set_option maxRecDepth 40000 in
/-- Claim C5 counterexample: uploading 600 characters of x (which chunks into
a 500-character and a 150-character piece) with the second chunk INSERT
failing leaves the store holding the document row together with only the
first of its two chunk rows — a partially-chunked document, which the claimed
single atomic transaction would make impossible. -/
theorem uploadDocument_partial_chunks_possible :
    uploadDocumentW (some 2) 1 (("txt").data) ['f', '1']
        (List.replicate 600 'x') 10 stEmpty =
      some (.error (),
        ⟨[], [], [], [⟨0, 1, ['f', '1'], List.replicate 600 'x'⟩],
          [⟨0, 1, List.replicate 500 'x', 0⟩], 1⟩) ∧
      chunkTextFuel (List.replicate 600 'x') 500 50 10 =
        some [List.replicate 500 'x', List.replicate 150 'x'] := by
  constructor
  · rfl
  · rfl

/-- Rows the chunk-INSERT loop produces for a list of chunks. -/
def chunkRowsFrom (docId userId idx : Nat) : List (List Char) → List ChunkRow
  | [] => []
  | c :: cs => ⟨docId, userId, c, idx⟩ :: chunkRowsFrom docId userId (idx + 1) cs

theorem insertChunks_fail (docId userId : Nat) :
    ∀ (k : Nat) (cs : List (List Char)) (idx stmtIdx : Nat) (st : AppState),
      k < cs.length →
      insertChunks (some (stmtIdx + k)) stmtIdx docId userId idx cs st =
        (.error (),
          { st with chunks := st.chunks ++ chunkRowsFrom docId userId idx (cs.take k) }) := by
  intro k
  induction k with
  | zero =>
    intro cs idx stmtIdx st hk
    match cs with
    | [] => simp at hk
    | c :: cs2 => simp [insertChunks, chunkRowsFrom]
  | succ k ih =>
    intro cs idx stmtIdx st hk
    match cs with
    | [] => simp at hk
    | c :: cs2 =>
      rw [insertChunks, if_neg (by simp)]
      rw [show stmtIdx + (k + 1) = (stmtIdx + 1) + k by omega]
      rw [ih cs2 (idx + 1) (stmtIdx + 1) _ (by simpa using hk)]
      simp [chunkRowsFrom]

/-- Claim C5 as amended: the document row and the chunk rows are written as
separate statements with no enclosing transaction: when the INSERT of chunk
`k` fails, the error propagates but the store keeps the document row and
exactly the chunks written before the failure. -/
theorem uploadDocument_fail_keeps_prior_writes (userId : Nat)
    (ftype oname text : List Char) (fuel k : Nat) (cs : List (List Char))
    (st : AppState)
    (htype : allowedTypes.contains (lowerStr ftype) = true)
    (htext : jsTrim text ≠ [])
    (hch : chunkTextFuel text 500 50 fuel = some cs)
    (hk : k < cs.length) :
    uploadDocumentW (some (k + 1)) userId ftype oname text fuel st =
      some (.error (),
        { st with
            documents := st.documents ++ [⟨st.nextDocId, userId, oname, text⟩],
            chunks := st.chunks ++ chunkRowsFrom st.nextDocId userId 0 (cs.take k),
            nextDocId := st.nextDocId + 1 }) := by
  unfold uploadDocumentW
  rw [htype]
  rw [if_neg (by simp)]
  rw [if_neg htext]
  rw [if_neg (by simp)]
  dsimp only
  simp only [hch]
  rw [show k + 1 = 1 + k by omega]
  rw [insertChunks_fail st.nextDocId userId k cs 0 1
    { st with
        documents := st.documents ++ [⟨st.nextDocId, userId, oname, text⟩],
        nextDocId := st.nextDocId + 1 } hk]

set_option maxRecDepth 40000 in
theorem uploadDocument_fail_keeps_prior_writes_witness :
    allowedTypes.contains (lowerStr (("txt").data)) = true ∧
      uploadDocumentW (some 2) 1 (("txt").data) ['f', '1']
          (List.replicate 600 'x') 10 stEmpty =
        some (.error (),
          { stEmpty with
              documents := stEmpty.documents ++
                [⟨stEmpty.nextDocId, 1, ['f', '1'], List.replicate 600 'x'⟩],
              chunks := stEmpty.chunks ++ chunkRowsFrom stEmpty.nextDocId 1 0
                ([List.replicate 500 'x', List.replicate 150 'x'].take 1),
              nextDocId := stEmpty.nextDocId + 1 }) :=
  ⟨by rfl,
    uploadDocument_fail_keeps_prior_writes 1 (("txt").data) ['f', '1']
      (List.replicate 600 'x') 10 1
      [List.replicate 500 'x', List.replicate 150 'x'] stEmpty
      (by rfl) (by decide) (by rfl) (by decide)⟩

/-- Batch of three files: plain-text file 1, unsupported-extension file 2,
plain-text file 3. -/
def uploadFilesW : List (List Char × List Char × List Char) :=
  [((("txt").data), ['f', '1'], ['a', 'a']),
   ((("xyz").data), ['f', '2'], ['b', 'b']),
   ((("txt").data), ['f', '3'], ['c', 'c'])]

/-- Claim C6 counterexample: the batch of 3 files whose second file has an
unsupported format stores exactly 2 documents, but the returned result list
has only the 2 success entries — not one entry per input file, and no
error entry. -/
theorem uploadDocuments_result_omits_failures :
    (uploadDocumentsW 1 10 uploadFilesW stEmpty).map (fun p => p.1.length) = some 2 ∧
      uploadFilesW.length = 3 ∧
      (uploadDocumentsW 1 10 uploadFilesW stEmpty).map
        (fun p => p.2.documents.length) = some 2 := by
  refine ⟨rfl, rfl, rfl⟩

/-- Claim C6 as amended: batch ingestion runs sequentially and continues past
the failing second file; exactly the two well-formed documents (and their
chunks) are stored, and the returned list carries one entry per SUCCESSFUL
file only — the failure is logged, not returned. -/
theorem uploadDocuments_batch_scenario :
    uploadDocumentsW 1 10 uploadFilesW stEmpty =
      some ([0, 1],
        ⟨[], [], [],
          [⟨0, 1, ['f', '1'], ['a', 'a']⟩, ⟨1, 1, ['f', '3'], ['c', 'c']⟩],
          [⟨0, 1, ['a', 'a'], 0⟩, ⟨1, 1, ['c', 'c'], 0⟩], 2⟩) := by
  rfl

end WeddingHelper
